import Mathlib

/-!
# Verification of the thermal-inspection analysis pipeline

Shallow embedding of the algorithmic core of the `thermo_final` repository
(`backend/app/main.py` and `backend/app/middleware/rate_limit.py`) together
with theorems settling the frozen claims about its specification.

Numeric values that the Python source handles as `float` are modelled as `ℚ`
(exact rational arithmetic); the claims under consideration are structural /
order-theoretic and do not hinge on binary floating-point rounding, except for
the haversine distance, which uses real-valued trigonometry and is modelled
over `ℝ`.
-/

namespace ThermoFinal

/-! ## Fault classification (main.py:723-730, `classify_fault_level`) -/

/-- Embeds `classify_fault_level(delta_t, threshold, priority)`:
`if delta_t <= threshold: "NORMAL" elif priority == "CRITICAL" or
delta_t > threshold * 2: "CRITICAL" else: "WARNING"`. -/
def classify_fault_level (delta_t threshold : ℚ) (priority : String) : String :=
  if delta_t ≤ threshold then "NORMAL"
  else if priority = "CRITICAL" ∨ threshold * 2 < delta_t then "CRITICAL"
  else "WARNING"

/-! ## Dynamic threshold (main.py:323-347, `ExcelDataIntegrator.get_dynamic_threshold`)

`get_dynamic_threshold` first looks the tower's metadata up; `get_tower_metadata`
(main.py:253-312) always returns a non-empty dict carrying the keys
`voltage_kv`, `capacity_amps`, `commissioning_year` (with defaults 110, 1000,
2000), so the `if not metadata` early return is dead and the function reduces
to the computation on those three fields, embedded here. -/

/-- Embeds the threshold computation of `get_dynamic_threshold`
(main.py:330-347) on the metadata fields it extracts:
base 8.0 for `voltage_kv >= 220` else 5.0, age adjustment
`min((2024 - commissioning_year) * 0.1, 2.0)`, capacity adjustment
`capacity_amps / 1000.0`, floored at 2.0. -/
def get_dynamic_threshold (voltage_kv capacity_amps commissioning_year : ℤ) : ℚ :=
  let base_threshold : ℚ := if (220 : ℤ) ≤ voltage_kv then 8 else 5
  let age : ℤ := 2024 - commissioning_year
  let age_adjustment : ℚ := min ((age : ℚ) * (1/10)) 2
  let capacity_adjustment : ℚ := (capacity_amps : ℚ) / 1000
  max (base_threshold - age_adjustment - capacity_adjustment) 2

/-! ## Sliding-window rate limiting (middleware/rate_limit.py) -/

/-- Outcome of an admission check: either the request is admitted, or it is
rejected carrying the `retry_after` value of the 429 payload. -/
inductive RLResult where
  | admitted : RLResult
  | rejected (retry_after : ℚ) : RLResult
deriving DecidableEq, Repr

/-- The purge step shared by `RateLimitMiddleware.dispatch` (rate_limit.py:35-38)
and `EndpointRateLimit.check_rate_limit` (rate_limit.py:79-82): keep only the
timestamps `ts` with `now - ts < period`. -/
def purgeWindow (period now : ℚ) (l : List ℚ) : List ℚ :=
  l.filter (fun ts => now - ts < period)

/-- Embeds `EndpointRateLimit.check_rate_limit` (rate_limit.py:73-96) acting on
one client's timestamp list: purge entries older than `period`, reject with
`retry_after = period` when the remaining count is ≥ `calls` (the purged list is
already stored back at that point — the HTTPException aborts before the append),
else append `now` and admit. Returns the decision and the client's new list. -/
def check_rate_limit (calls : ℕ) (period now : ℚ) (l : List ℚ) : RLResult × List ℚ :=
  let purged := purgeWindow period now l
  if calls ≤ purged.length then (RLResult.rejected period, purged)
  else (RLResult.admitted, purged ++ [now])

/-- The state of the per-client window after the first `k` checks of a client
issuing requests at times `t 0, t 1, ...` against a limiter that starts with an
empty list for that client (`defaultdict(list)`, rate_limit.py:64). -/
def statesFrom (calls : ℕ) (period : ℚ) (t : ℕ → ℚ) : ℕ → List ℚ
  | 0 => []
  | k + 1 => (check_rate_limit calls period (t k) (statesFrom calls period t k)).2

/-- ASCII lowering of a character, modelling Python's `str.lower()` on the
ASCII strings involved. -/
def asciiLower (c : Char) : Char :=
  if 'A' ≤ c ∧ c ≤ 'Z' then Char.ofNat (c.toNat + 32) else c

/-- `startsList n l` holds when `n` is an initial segment of `l`. -/
def startsList : List Char → List Char → Bool
  | [], _ => true
  | _ :: _, [] => false
  | a :: as, b :: bs => a = b && startsList as bs

/-- `containsList n l` models Python's `n in l` substring test. -/
def containsList (needle : List Char) : List Char → Bool
  | [] => needle.isEmpty
  | l@(_ :: rest) => startsList needle l || containsList needle rest

/-- Models `"testclient" in user_agent.lower()` (rate_limit.py:28). -/
def isTestClientUA (user_agent : String) : Bool :=
  containsList "testclient".toList (user_agent.toList.map asciiLower)

/-- Outcome of the middleware: the request is forwarded to the inner app, or
rejected with a 429 carrying `retry_after`. -/
inductive DispatchResult where
  | forwarded : DispatchResult
  | rejected (retry_after : ℚ) : DispatchResult
deriving DecidableEq, Repr

/-- Embeds `RateLimitMiddleware.dispatch` (rate_limit.py:26-55): requests whose
lowercased User-Agent contains `"testclient"` are forwarded untouched; otherwise
the client's window is purged (and stored back), the count checked, and on
admission the current time appended. The `clients` map models the
`defaultdict(list)` of per-client timestamp lists. -/
def dispatch (calls : ℕ) (period : ℚ) (user_agent client_ip : String) (now : ℚ)
    (clients : String → List ℚ) : DispatchResult × (String → List ℚ) :=
  if isTestClientUA user_agent then (DispatchResult.forwarded, clients)
  else
    let purged := purgeWindow period now (clients client_ip)
    let clients' := fun k => if k = client_ip then purged else clients k
    if calls ≤ purged.length then (DispatchResult.rejected period, clients')
    else (DispatchResult.forwarded,
          fun k => if k = client_ip then purged ++ [now] else clients k)

/-! ## Temperature extraction (main.py:460-662, `extract_temperature_from_image`)

The portion of the extractor downstream of the optical recognizer is embedded
exactly: the three regex pattern families (main.py:542-545), the candidate
collection loop (main.py:558-602) and the four-stage selection chain
(main.py:604-659). The recognizer itself is external; its raw output is the
`Detection` list. Bounding-box coordinates are those EasyOCR reports, i.e.
relative to the cropped band, while the closures `pick_top_right` and
`pick_near_label` capture the enclosing scope's full image `width` and ROI
bounds `y0`, `y1` (main.py:470-481). -/

/-- A 2-D point of a bounding polygon. -/
structure Pt where
  x : ℚ
  y : ℚ
deriving DecidableEq, Repr

/-- A four-point bounding polygon as returned by the recognizer. -/
structure BBox where
  p1 : Pt
  p2 : Pt
  p3 : Pt
  p4 : Pt
deriving DecidableEq, Repr

/-- `bbox_center` x-coordinate (main.py:547-551). -/
def BBox.centerX (b : BBox) : ℚ := (b.p1.x + b.p2.x + b.p3.x + b.p4.x) / 4

/-- `bbox_center` y-coordinate (main.py:547-551). -/
def BBox.centerY (b : BBox) : ℚ := (b.p1.y + b.p2.y + b.p3.y + b.p4.y) / 4

/-- `min(p[1] for p in bbox)` (main.py:609). -/
def BBox.ymin (b : BBox) : ℚ := min (min b.p1.y b.p2.y) (min b.p3.y b.p4.y)

/-- `max(p[1] for p in bbox)` (main.py:610). -/
def BBox.ymax (b : BBox) : ℚ := max (max b.p1.y b.p2.y) (max b.p3.y b.p4.y)

/-- One raw text detection `(bbox, text, conf)` from the recognizer. -/
structure Detection where
  bbox : BBox
  text : String
  conf : ℚ
deriving DecidableEq, Repr

/-- One temperature candidate `(value, confidence, bbox, text)` as stored in
the `numbers` / `degree_candidates` lists (main.py:554-556). -/
structure Candidate where
  val : ℚ
  conf : ℚ
  bbox : BBox
  text : String
deriving DecidableEq, Repr

/-- Python's `\s` on the ASCII range: space, tab, LF, CR, VT, FF. -/
def pyIsSpace (c : Char) : Bool :=
  c = ' ' ∨ c = '\t' ∨ c = '\n' ∨ c = '\r' ∨ c = '\x0b' ∨ c = '\x0c'

/-- Python's `str.strip()` on the ASCII strings involved (main.py:561). -/
def pyStrip (s : String) : String :=
  String.mk (((s.toList.dropWhile pyIsSpace).reverse.dropWhile pyIsSpace).reverse)

/-- Models `'max' in text_clean.lower()` (main.py:563). -/
def hasMaxToken (s : String) : Bool :=
  containsList "max".toList (s.toList.map asciiLower)

/-- Models the degree-mark test of main.py:601:
`('°' in text) or ('c' in text.lower()) or ('f' in text.lower())`. -/
def hasDegreeMarkChar (s : String) : Bool :=
  s.toList.any (fun c => c = '°' ∨ asciiLower c = 'c' ∨ asciiLower c = 'f')

/-- Take at most `n` leading characters satisfying `p`; returns them together
with the remainder — the greedy bounded quantifier of `\d{1,3}` / `\d{1,2}`. -/
def takeUpTo : ℕ → (Char → Bool) → List Char → List Char × List Char
  | 0, _, l => ([], l)
  | _ + 1, _, [] => ([], [])
  | n + 1, p, c :: rest =>
      if p c then
        let t := takeUpTo n p rest
        (c :: t.1, t.2)
      else ([], c :: rest)

/-- Numeric value of a digit string. -/
def digitsVal (ds : List Char) : ℕ :=
  ds.foldl (fun a c => 10 * a + (c.toNat - '0'.toNat)) 0

/-- Regex match of `\d{1,3}(?:\.\d{1,2})?` at the current position, returning
the captured value and the rest of the input after the match (the shared
capture group of all three patterns, main.py:542-545). The bounded greedy
quantifiers need no backtracking because everything after the group is
optional. -/
def matchNum (l : List Char) : Option (ℚ × List Char) :=
  if (takeUpTo 3 Char.isDigit l).1.isEmpty then none
  else
    match (takeUpTo 3 Char.isDigit l).2 with
    | '.' :: rest2 =>
        if (takeUpTo 2 Char.isDigit rest2).1.isEmpty then
          some ((digitsVal (takeUpTo 3 Char.isDigit l).1 : ℚ),
                (takeUpTo 3 Char.isDigit l).2)
        else
          some ((digitsVal (takeUpTo 3 Char.isDigit l).1 : ℚ)
                  + (digitsVal (takeUpTo 2 Char.isDigit rest2).1 : ℚ)
                      / (10 : ℚ) ^ (takeUpTo 2 Char.isDigit rest2).1.length,
                (takeUpTo 2 Char.isDigit rest2).2)
    | rest => some ((digitsVal (takeUpTo 3 Char.isDigit l).1 : ℚ), rest)

/-- Dropping of the optional `[°]?` of the unit pattern (main.py:544). -/
def dropDegreeChar : List Char → List Char
  | '°' :: r => r
  | l => l

/-- Dropping of the optional `[CcFf]?` of the unit pattern (main.py:544). -/
def dropUnitChar : List Char → List Char
  | c :: r => if c = 'C' ∨ c = 'c' ∨ c = 'F' ∨ c = 'f' then r else c :: r
  | [] => []

/-- Dropping of the optional `:?` of the "Max" pattern (main.py:545). -/
def dropColonChar : List Char → List Char
  | ':' :: r => r
  | l => l

/-- The all-optional tail `\s*[°]?\s*[CcFf]?` of the unit pattern
(main.py:544), consumed greedily after the captured number. -/
def unitSuffix (l : List Char) : List Char :=
  dropUnitChar ((dropDegreeChar (l.dropWhile pyIsSpace)).dropWhile pyIsSpace)

/-- `re.findall` of the bare-number pattern `temp_num` (main.py:542): scan left
to right, at each position try the number match; on success record the capture
and resume after the match, otherwise advance one character. The `fuel`
argument only bounds the number of scan steps for structural recursion: every
step consumes at least one input character (`matchNum_length`), so
`scanNumbers` passes fuel that can never run out. -/
def scanNumbersGo : ℕ → List Char → List ℚ
  | 0, _ => []
  | _ + 1, [] => []
  | fuel + 1, c :: rest =>
    match matchNum (c :: rest) with
    | some (v, r) => v :: scanNumbersGo fuel r
    | none => scanNumbersGo fuel rest

/-- `temp_num.findall` on a character list. -/
def scanNumbers (l : List Char) : List ℚ := scanNumbersGo l.length l

/-- `re.findall` of the optional-unit pattern `temp_with_unit` (main.py:544):
like `scanNumbers` but each successful match additionally consumes the
(entirely optional) trailing `\s*[°]?\s*[CcFf]?` (`unitSuffix_length_le` keeps
the step consuming). -/
def scanNumbersUnitGo : ℕ → List Char → List ℚ
  | 0, _ => []
  | _ + 1, [] => []
  | fuel + 1, c :: rest =>
    match matchNum (c :: rest) with
    | some (v, r) => v :: scanNumbersUnitGo fuel (unitSuffix r)
    | none => scanNumbersUnitGo fuel rest

/-- `temp_with_unit.findall` on a character list. -/
def scanNumbersUnit (l : List Char) : List ℚ := scanNumbersUnitGo l.length l

/-- The match of `temp_max_pattern` = `max\s*:?\s*(\d{1,3}(?:\.\d{1,2})?)`
(IGNORECASE, main.py:545) at the current position. -/
def matchMaxAt (l : List Char) : Option (ℚ × List Char) :=
  match l with
  | c1 :: c2 :: c3 :: r =>
    if asciiLower c1 = 'm' ∧ asciiLower c2 = 'a' ∧ asciiLower c3 = 'x' then
      matchNum ((dropColonChar (r.dropWhile pyIsSpace)).dropWhile pyIsSpace)
    else none
  | _ => none

/-- `re.findall` of `temp_max_pattern` (main.py:545); fuel as in
`scanNumbersGo` (`matchMaxAt_length` keeps every step consuming). -/
def scanMaxGo : ℕ → List Char → List ℚ
  | 0, _ => []
  | _ + 1, [] => []
  | fuel + 1, c :: rest =>
    match matchMaxAt (c :: rest) with
    | some (v, r) => v :: scanMaxGo fuel r
    | none => scanMaxGo fuel rest

/-- `temp_max_pattern.findall` on a character list. -/
def scanMax (l : List Char) : List ℚ := scanMaxGo l.length l

/-- `temp_num.findall(text)` on a Lean string. -/
def findallTempNum (s : String) : List ℚ := scanNumbers s.toList

/-- `temp_with_unit.findall(text)` on a Lean string. -/
def findallTempWithUnit (s : String) : List ℚ := scanNumbersUnit s.toList

/-- `temp_max_pattern.findall(text)` on a Lean string. -/
def findallTempMax (s : String) : List ℚ := scanMax s.toList

/-- The three lists accumulated by the candidate-collection loop
(main.py:553-556): `numbers`, `labels_max`, `degree_candidates`. -/
structure Collected where
  numbers : List Candidate
  labels_max : List (BBox × ℚ × String)
  degree_candidates : List Candidate
deriving DecidableEq, Repr

/-- `OCR_TEMPERATURE_RANGE[0] <= val <= OCR_TEMPERATURE_RANGE[1]` with the
fixed range `(20, 80)` (config.py:52). -/
def inTempRange (v : ℚ) : Bool := 20 ≤ v ∧ v ≤ 80

/-- Append one entry to both `numbers` and `degree_candidates`, as the "Max"
and unit-pattern branches do (main.py:571-573, 584-586). -/
def addBoth (c : Collected) (e : Candidate) : Collected :=
  { c with numbers := c.numbers ++ [e],
           degree_candidates := c.degree_candidates ++ [e] }

/-- The "max"-label branch of the collection loop (main.py:563-575): when the
stripped text contains "max", register a label anchor and add every in-range
`temp_max_pattern` capture to both lists with a +0.2 confidence bonus. -/
def maxBranch (conf : ℚ) (bbox : BBox) (tc : String) (c : Collected) : Collected :=
  if hasMaxToken tc then
    (findallTempMax tc).foldl
      (fun acc v =>
        if inTempRange v then addBoth acc ⟨v, conf + 1/5, bbox, tc⟩ else acc)
      { c with labels_max := c.labels_max ++ [(bbox, conf, tc)] }
  else c

/-- The unit-pattern branch (main.py:577-588): every in-range
`temp_with_unit` capture goes to both `numbers` and `degree_candidates` with a
+0.1 bonus — the unit marker being optional in the pattern, this includes bare
numbers. -/
def unitBranch (conf : ℚ) (bbox : BBox) (tc : String) (c : Collected) : Collected :=
  (findallTempWithUnit tc).foldl
    (fun acc v =>
      if inTempRange v then addBoth acc ⟨v, conf + 1/10, bbox, tc⟩ else acc) c

/-- The bare-number fallback branch (main.py:590-602): an in-range `temp_num`
capture is added (no bonus) unless some already-collected number lies within
0.1 of it; it also becomes a degree candidate when the text carries a °/c/f
character. -/
def numBranch (conf : ℚ) (bbox : BBox) (tc : String) (c : Collected) : Collected :=
  (findallTempNum tc).foldl
    (fun acc v =>
      if inTempRange v ∧ ¬ acc.numbers.any (fun e => |e.val - v| < 1/10) then
        { acc with
          numbers := acc.numbers ++ [⟨v, conf, bbox, tc⟩],
          degree_candidates :=
            if hasDegreeMarkChar tc then
              acc.degree_candidates ++ [⟨v, conf, bbox, tc⟩]
            else acc.degree_candidates }
      else acc) c

/-- One iteration of the collection loop (main.py:558-602) on a single
detection: skip low-confidence or empty text, strip the text, then run the
three pattern branches in order. -/
def processDetection (conf_threshold : ℚ) (c : Collected) (d : Detection) : Collected :=
  if d.conf < conf_threshold ∨ d.text = "" then c
  else
    numBranch d.conf d.bbox (pyStrip d.text)
      (unitBranch d.conf d.bbox (pyStrip d.text)
        (maxBranch d.conf d.bbox (pyStrip d.text) c))

/-- The whole collection loop over the recognizer's output (main.py:558-602). -/
def collectCandidates (conf_threshold : ℚ) (dets : List Detection) : Collected :=
  dets.foldl (processDetection conf_threshold) ⟨[], [], []⟩

/-- Stage 1, `pick_near_label` (main.py:605-622): scan every (label, number)
pair; a number on the label's row (within ±5% of the band height) and to its
right scores `conf*2 − dist/max(1, band_h)`; keep the strictly best score,
earlier pairs winning ties. `y0`, `y1` are the ROI bounds captured from the
enclosing scope. -/
def pick_near_label (y0 y1 : ℚ) (c : Collected) : Option ℚ :=
  (c.labels_max.foldl
    (fun best lb =>
      c.numbers.foldl
        (fun best nb =>
          let lx := lb.1.centerX
          let ly := lb.1.centerY
          let nx := nb.bbox.centerX
          let ny := nb.bbox.centerY
          let band_h := if 0 < y1 - y0 then y1 - y0 else 1
          let same_row := lb.1.ymin - band_h * (1/20) ≤ ny ∧ ny ≤ lb.1.ymax + band_h * (1/20)
          let to_right := lx < nx
          if same_row ∧ to_right then
            let dist := |ny - ly| + max 0 (nx - lx)
            let score := nb.conf * 2 - dist / max 1 band_h
            match best with
            | none => some (score, nb.val)
            | some b => if b.1 < score then some (score, nb.val) else some b
          else best)
        best)
    none).map Prod.snd

/-- The first element of maximal confidence, i.e.
`sorted(l, key=lambda x: x[1], reverse=True)[0]` for a stable sort. -/
def firstMaxByConf (l : List Candidate) : Option Candidate :=
  l.foldl
    (fun acc x =>
      match acc with
      | none => some x
      | some b => if b.conf < x.conf then some x else acc)
    none

/-- Stage 2, `pick_degree_mark` (main.py:625-629): the value of the
highest-confidence entry of `degree_candidates` (first wins ties), `None` when
the list is empty. -/
def pick_degree_mark (c : Collected) : Option ℚ :=
  (firstMaxByConf c.degree_candidates).map Candidate.val

/-- The lexicographic maximum of `(conf, val)` pairs, i.e.
`sorted(candidates, reverse=True)[0]`. -/
def maxPairLex (l : List (ℚ × ℚ)) : Option (ℚ × ℚ) :=
  l.foldl
    (fun acc x =>
      match acc with
      | none => some x
      | some b => if b.1 < x.1 ∨ (b.1 = x.1 ∧ b.2 < x.2) then some x else acc)
    none

/-- Stage 3, `pick_top_right` (main.py:632-642): among numbers whose box
center satisfies `nx >= width * 0.6` — `width` being the full image width
captured from the enclosing scope, even though box coordinates are local to
the cropped band — return the value of the largest `(conf, val)` pair. -/
def pick_top_right (width : ℚ) (c : Collected) : Option ℚ :=
  if c.numbers.isEmpty then none
  else
    match maxPairLex ((c.numbers.filter
        (fun nb => width * (3/5) ≤ nb.bbox.centerX)).map (fun nb => (nb.conf, nb.val))) with
    | some p => some p.2
    | none => none

/-- Stage 4, `pick_highest_conf` (main.py:645-648). -/
def pick_highest_conf (c : Collected) : Option ℚ :=
  (firstMaxByConf c.numbers).map Candidate.val

/-- The ordered fallback chain (main.py:650-659): label proximity, then degree
mark, then — only when `OCR_REGION == 'top_right'` — the side stage, then the
global highest-confidence candidate. -/
def selectTemperature (region : String) (width y0 y1 : ℚ) (c : Collected) : Option ℚ :=
  match pick_near_label y0 y1 c with
  | some v => some v
  | none =>
    match pick_degree_mark c with
    | some v => some v
    | none =>
      if region = "top_right" then
        match pick_top_right width c with
        | some v => some v
        | none => pick_highest_conf c
      else pick_highest_conf c

/-- Python's `round()` (round-half-to-even) of a rational to an integer. -/
def roundHalfEven (q : ℚ) : ℤ :=
  if q - ⌊q⌋ < 1/2 then ⌊q⌋
  else if 1/2 < q - ⌊q⌋ then ⌊q⌋ + 1
  else if 2 ∣ ⌊q⌋ then ⌊q⌋ else ⌊q⌋ + 1

/-- `round(x, 1)`: one decimal digit. -/
def pyRound1 (q : ℚ) : ℚ := (roundHalfEven (q * 10) : ℚ) / 10

/-- Embeds `extract_temperature_from_image` (main.py:460-662). The lazily
constructed recognizer handle is `reader`, modelled as `none` when
`get_ocr_reader()` failed (main.py:462-465) and otherwise as the detection
list its `readtext` call produces on the cropped band; `rng` is the value
drawn by `random.uniform(35, 55)` on the unavailable path (main.py:464-465);
`region`/`conf_threshold` are `OCR_REGION`/`OCR_CONFIDENCE_THRESHOLD`, and
`width`, `y0`, `y1` the image width and ROI bounds of main.py:470-481. -/
def extract_temperature_from_image (reader : Option (List Detection)) (rng : ℚ)
    (region : String) (conf_threshold width y0 y1 : ℚ) : Option ℚ :=
  match reader with
  | none => some (pyRound1 rng)
  | some dets => selectTemperature region width y0 y1 (collectCandidates conf_threshold dets)

/-! ## Asset matching (main.py:664-706)

`haversine_distance` uses real trigonometry (`math.sin`, `math.asin`, …), so
this component is modelled over `ℝ`; the definitions are necessarily
noncomputable, which only these two functions are. -/

/-- One well-formed registry row as consumed by `find_nearest_tower`: the
identifying fields plus coordinates that parse as numbers (a malformed row
raises inside the loop body and is skipped, main.py:703-704; the claims here
quantify over well-formed rows only). -/
structure Tower where
  tower_id : ℤ
  tower_name : String
  latitude : ℝ
  longitude : ℝ

/-- `math.radians`. -/
noncomputable def radiansOf (x : ℝ) : ℝ := x * Real.pi / 180

/-- Embeds `haversine_distance` (main.py:664-671): the haversine great-circle
distance with mean Earth radius 6371 km. -/
noncomputable def haversine_distance (lat1 lon1 lat2 lon2 : ℝ) : ℝ :=
  2 * Real.arcsin (Real.sqrt
    (Real.sin ((radiansOf lat2 - radiansOf lat1) / 2) ^ 2
      + Real.cos (radiansOf lat1) * Real.cos (radiansOf lat2)
        * Real.sin ((radiansOf lon2 - radiansOf lon1) / 2) ^ 2)) * 6371

/-- The loop of `find_nearest_tower` (main.py:678-704): running
`(min_distance, nearest)` accumulator, updated only on strict improvement
(`distance < min_distance`). The initial `min_distance = float('inf')` is
modelled by `none`, which the first row always replaces — exactly the effect
of every finite distance comparing below infinity. -/
noncomputable def scanNearest (lat lon : ℝ) :
    List Tower → Option (ℝ × Tower) → Option (ℝ × Tower)
  | [], acc => acc
  | t :: rest, acc =>
    match acc with
    | none =>
        scanNearest lat lon rest
          (some (haversine_distance lat lon t.latitude t.longitude, t))
    | some (m, b) =>
        if haversine_distance lat lon t.latitude t.longitude < m then
          scanNearest lat lon rest
            (some (haversine_distance lat lon t.latitude t.longitude, t))
        else scanNearest lat lon rest (some (m, b))

/-- Embeds `find_nearest_tower` (main.py:673-706) on well-formed rows,
returning the winning registry row (whose fields the source then merges with
enrichment metadata into the result dict). -/
noncomputable def find_nearest_tower (lat lon : ℝ) (rows : List Tower) : Option Tower :=
  (scanNearest lat lon rows none).map Prod.snd

/-- The distance computed for one row inside the loop (main.py:685). -/
noncomputable def towerDist (lat lon : ℝ) (u : Tower) : ℝ :=
  haversine_distance lat lon u.latitude u.longitude

/-! ## Per-image processing (main.py:1445-1500, `_process_and_store_image`) -/

/-- The fields of the nearest-tower dict consumed by the classification block
of `_process_and_store_image` (`tower_name`, `camp_name` at main.py:1468 and
`priority` at main.py:1470,1489; `find_nearest_tower` and `get_tower_metadata`
always populate all three). -/
structure TowerMatch where
  tower_name : String
  camp_name : String
  priority : String
deriving DecidableEq, Repr

/-- The analysis fields of the stored record that the classification block of
`_process_and_store_image` determines (main.py:1462-1476 and 1486-1489,
1495). -/
structure ProcessOutcome where
  delta_t : Option ℚ
  threshold_used : ℚ
  fault_level : String
  analysis_status : String
  priority : String
deriving DecidableEq, Repr

/-- Embeds the classification block of `_process_and_store_image`
(main.py:1462-1476) plus the record's `priority` field (main.py:1489).
`thresholdOf` stands for `excel_integrator.get_dynamic_threshold`, and the
`t ≠ 0` guards reproduce Python's truthiness test `if image_temp` (a reading of
exactly 0.0 is falsy and falls through to the `failed` defaults). -/
def processOutcome (thresholdOf : String → String → ℚ) (image_temp : Option ℚ)
    (ambient_temp : ℚ) (nearest : Option TowerMatch) : ProcessOutcome :=
  let priority := match nearest with
    | some nt => nt.priority
    | none => "MEDIUM"
  match image_temp, nearest with
  | some temp, some nt =>
      if temp ≠ 0 then
        let threshold_used := thresholdOf nt.tower_name nt.camp_name
        let delta := temp - ambient_temp
        ⟨some delta, threshold_used,
         classify_fault_level delta threshold_used nt.priority, "success", priority⟩
      else ⟨none, 5, "NORMAL", "failed", priority⟩
  | some temp, none =>
      if temp ≠ 0 then
        let delta := temp - ambient_temp
        ⟨some delta, 5, if 5 < delta then "WARNING" else "NORMAL", "partial", priority⟩
      else ⟨none, 5, "NORMAL", "failed", priority⟩
  | none, _ => ⟨none, 5, "NORMAL", "failed", priority⟩

/-! ## A concrete recognizer output used by several concrete evaluations -/

/-- A bounding box whose center is (400, 20): inside the right half of a
500-wide band (the favored half of a `top_right` ROI on a 1000-wide image with
the default side fraction 0.5). -/
def sampleBBox : BBox := ⟨⟨390, 10⟩, ⟨410, 10⟩, ⟨410, 30⟩, ⟨390, 30⟩⟩

/-- A detection of the bare text "42" (no degree or unit mark) with confidence
0.5, above the default confidence threshold 0.4. -/
def sampleDetection : Detection := ⟨sampleBBox, "42", 1/2⟩

/-! ## Supporting lemmas

The length lemmas below record that every regex-match step consumes at least
one input character, so the `l.length` fuel of the scan functions can never
be exhausted before the input is. -/

theorem takeUpTo_append (n : ℕ) (p : Char → Bool) (l : List Char) :
    (takeUpTo n p l).1 ++ (takeUpTo n p l).2 = l := by
  induction n generalizing l with
  | zero => rfl
  | succ n ih =>
    cases l with
    | nil => rfl
    | cons c rest =>
      by_cases h : p c
      · simp [takeUpTo, h, ih rest]
      · simp [takeUpTo, h]

theorem takeUpTo_tail_le (n : ℕ) (p : Char → Bool) (l : List Char) :
    (takeUpTo n p l).2.length ≤ l.length := by
  conv_rhs => rw [← takeUpTo_append n p l]
  simp

theorem takeUpTo_tail_lt (n : ℕ) (p : Char → Bool) (l : List Char)
    (h : (takeUpTo n p l).1 ≠ []) : (takeUpTo n p l).2.length < l.length := by
  conv_rhs => rw [← takeUpTo_append n p l]
  simp only [List.length_append]
  have : 0 < (takeUpTo n p l).1.length := List.length_pos.mpr h
  omega

theorem matchNum_length (l : List Char) (v : ℚ) (r : List Char)
    (h : matchNum l = some (v, r)) : r.length < l.length := by
  unfold matchNum at h
  split at h
  · exact absurd h (by simp)
  · rename_i he
    have hne : (takeUpTo 3 Char.isDigit l).1 ≠ [] := by
      simpa [List.isEmpty_iff] using he
    have hlt := takeUpTo_tail_lt 3 Char.isDigit l hne
    split at h
    · rename_i rest2 heq
      split at h
      · simp only [Option.some.injEq, Prod.mk.injEq] at h
        obtain ⟨-, h2⟩ := h
        subst h2
        exact hlt
      · simp only [Option.some.injEq, Prod.mk.injEq] at h
        obtain ⟨-, h2⟩ := h
        subst h2
        have h2' := takeUpTo_tail_le 2 Char.isDigit rest2
        rw [heq] at hlt
        simp only [List.length_cons] at hlt
        omega
    · simp only [Option.some.injEq, Prod.mk.injEq] at h
      obtain ⟨-, h2⟩ := h
      subst h2
      exact hlt

theorem dropWhile_length_le (p : Char → Bool) (l : List Char) :
    (l.dropWhile p).length ≤ l.length :=
  (List.dropWhile_suffix p).length_le

theorem dropDegreeChar_length_le (l : List Char) :
    (dropDegreeChar l).length ≤ l.length := by
  unfold dropDegreeChar
  split <;> simp

theorem dropUnitChar_length_le (l : List Char) :
    (dropUnitChar l).length ≤ l.length := by
  unfold dropUnitChar
  split
  · split <;> simp
  · simp

theorem dropColonChar_length_le (l : List Char) :
    (dropColonChar l).length ≤ l.length := by
  unfold dropColonChar
  split <;> simp

theorem unitSuffix_length_le (l : List Char) :
    (unitSuffix l).length ≤ l.length :=
  le_trans (dropUnitChar_length_le _)
    (le_trans (dropWhile_length_le _ _)
      (le_trans (dropDegreeChar_length_le _) (dropWhile_length_le _ _)))

theorem matchMaxAt_length (l : List Char) (v : ℚ) (r : List Char)
    (h : matchMaxAt l = some (v, r)) : r.length < l.length := by
  unfold matchMaxAt at h
  split at h
  · rename_i c1 c2 c3 r0
    split at h
    · have h1 := matchNum_length _ _ _ h
      have h2 : ((dropColonChar (r0.dropWhile pyIsSpace)).dropWhile pyIsSpace).length
          ≤ r0.length :=
        le_trans (dropWhile_length_le _ _)
          (le_trans (dropColonChar_length_le _) (dropWhile_length_le _ _))
      simp only [List.length_cons]
      omega
    · exact absurd h (by simp)
  · exact absurd h (by simp)

/-- Characterization of the nearest-scan loop starting from a finite
accumulator `(m, b)`: either no row improves on `m` and the accumulator
survives, or the result is the first row attaining the strictly-improved
minimum. -/
theorem scanNearest_spec (lat lon : ℝ) (l : List Tower) :
    ∀ (m : ℝ) (b : Tower),
      (scanNearest lat lon l (some (m, b)) = some (m, b) ∧
        ∀ u ∈ l, m ≤ towerDist lat lon u) ∨
      (∃ l1 t l2, l = l1 ++ t :: l2 ∧
        scanNearest lat lon l (some (m, b)) = some (towerDist lat lon t, t) ∧
        towerDist lat lon t < m ∧
        (∀ u ∈ l1, towerDist lat lon t < towerDist lat lon u) ∧
        (∀ u ∈ l2, towerDist lat lon t ≤ towerDist lat lon u)) := by
  induction l with
  | nil =>
    intro m b
    left
    exact ⟨rfl, by simp⟩
  | cons t rest ih =>
    intro m b
    by_cases hlt : towerDist lat lon t < m
    · have hred : scanNearest lat lon (t :: rest) (some (m, b)) =
          scanNearest lat lon rest (some (towerDist lat lon t, t)) := by
        simp only [scanNearest]
        rw [if_pos (show haversine_distance lat lon t.latitude t.longitude < m from hlt)]
        rfl
      rcases ih (towerDist lat lon t) t with ⟨heq, hall⟩ | ⟨l1, t', l2, hsp, heq, hlt', h1, h2⟩
      · right
        refine ⟨[], t, rest, by simp, ?_, hlt, by simp, hall⟩
        rw [hred, heq]
      · right
        refine ⟨t :: l1, t', l2, by simp [hsp], ?_, lt_trans hlt' hlt, ?_, h2⟩
        · rw [hred, heq]
        · intro u hu
          rcases List.mem_cons.mp hu with rfl | hu'
          · exact hlt'
          · exact h1 u hu'
    · have hred : scanNearest lat lon (t :: rest) (some (m, b)) =
          scanNearest lat lon rest (some (m, b)) := by
        simp only [scanNearest]
        rw [if_neg (show ¬ haversine_distance lat lon t.latitude t.longitude < m from hlt)]
      rcases ih m b with ⟨heq, hall⟩ | ⟨l1, t', l2, hsp, heq, hlt', h1, h2⟩
      · left
        refine ⟨by rw [hred, heq], ?_⟩
        intro u hu
        rcases List.mem_cons.mp hu with rfl | hu'
        · exact le_of_not_lt hlt
        · exact hall u hu'
      · right
        refine ⟨t :: l1, t', l2, by simp [hsp], by rw [hred, heq], hlt', ?_, h2⟩
        intro u hu
        rcases List.mem_cons.mp hu with rfl | hu'
        · exact lt_of_lt_of_le hlt' (le_of_not_lt hlt)
        · exact h1 u hu'

/-- `roundHalfEven` stays between any integer bounds enclosing its argument. -/
theorem roundHalfEven_bounds (n m : ℤ) (q : ℚ) (hl : (n : ℚ) ≤ q)
    (hu : q ≤ (m : ℚ)) : n ≤ roundHalfEven q ∧ roundHalfEven q ≤ m := by
  have hfl : n ≤ ⌊q⌋ := Int.le_floor.mpr hl
  have hfl' : (⌊q⌋ : ℚ) ≤ q := Int.floor_le q
  constructor
  · unfold roundHalfEven
    split
    · exact hfl
    · split
      · omega
      · split <;> omega
  · unfold roundHalfEven
    split
    · have h2 : ⌊q⌋ ≤ ⌊(m : ℚ)⌋ := Int.floor_le_floor hu
      simpa using h2
    · rename_i h1
      push_neg at h1
      have hlt : (⌊q⌋ : ℚ) < (m : ℚ) := by linarith
      have hlt' : ⌊q⌋ < m := by exact_mod_cast hlt
      split
      · omega
      · split <;> omega

/-- A fold whose every step only extends `degree_candidates` preserves
membership in it. -/
theorem foldl_degree_mono {α : Type} (f : Collected → α → Collected)
    (hf : ∀ acc v, acc.degree_candidates ⊆ (f acc v).degree_candidates)
    (lst : List α) (acc : Collected) :
    acc.degree_candidates ⊆ (List.foldl f acc lst).degree_candidates := by
  induction lst generalizing acc with
  | nil => exact fun _ h => h
  | cons v t ih =>
    rw [List.foldl_cons]
    exact List.Subset.trans (hf acc v) (ih (f acc v))

theorem addBoth_degree_subset (c : Collected) (e : Candidate) :
    c.degree_candidates ⊆ (addBoth c e).degree_candidates := by
  simp only [addBoth]
  exact List.subset_append_left _ _

/-- The per-value step of the "max" and unit branches extends
`degree_candidates`. -/
theorem rangeAddStep_degree_subset (cf : ℚ) (bx : BBox) (tx : String)
    (acc : Collected) (v : ℚ) :
    acc.degree_candidates ⊆
      (if inTempRange v then addBoth acc ⟨v, cf, bx, tx⟩ else acc).degree_candidates := by
  split
  · exact addBoth_degree_subset _ _
  · exact fun _ h => h

theorem maxBranch_degree_subset (conf : ℚ) (bbox : BBox) (tc : String)
    (c : Collected) :
    c.degree_candidates ⊆ (maxBranch conf bbox tc c).degree_candidates := by
  unfold maxBranch
  split
  · exact foldl_degree_mono _ (rangeAddStep_degree_subset (conf + 1/5) bbox tc)
      (findallTempMax tc)
      { c with labels_max := c.labels_max ++ [(bbox, conf, tc)] }
  · exact fun _ h => h

theorem unitBranch_degree_subset (conf : ℚ) (bbox : BBox) (tc : String)
    (c : Collected) :
    c.degree_candidates ⊆ (unitBranch conf bbox tc c).degree_candidates := by
  unfold unitBranch
  exact foldl_degree_mono _ (rangeAddStep_degree_subset _ _ _) _ _

theorem numBranch_degree_subset (conf : ℚ) (bbox : BBox) (tc : String)
    (c : Collected) :
    c.degree_candidates ⊆ (numBranch conf bbox tc c).degree_candidates := by
  unfold numBranch
  apply foldl_degree_mono
  intro acc v
  split
  · dsimp only
    split
    · exact List.subset_append_left _ _
    · exact fun _ h => h
  · exact fun _ h => h

theorem processDetection_degree_subset (cth : ℚ) (c : Collected) (d : Detection) :
    c.degree_candidates ⊆ (processDetection cth c d).degree_candidates := by
  unfold processDetection
  split
  · exact fun _ h => h
  · exact List.Subset.trans (maxBranch_degree_subset _ _ _ _)
      (List.Subset.trans (unitBranch_degree_subset _ _ _ _)
        (numBranch_degree_subset _ _ _ _))

/-- Every in-range value fed to a unit/max-style fold ends up in
`degree_candidates`. -/
theorem foldl_rangeAdd_mem (cf : ℚ) (bx : BBox) (tx : String) (lst : List ℚ)
    (c : Collected) (v : ℚ) (hv : v ∈ lst) (hr : inTempRange v = true) :
    ∃ e ∈ (lst.foldl
        (fun acc w => if inTempRange w then addBoth acc ⟨w, cf, bx, tx⟩ else acc)
        c).degree_candidates, e.val = v := by
  induction lst generalizing c with
  | nil => cases hv
  | cons w t ih =>
    rw [List.foldl_cons]
    rcases List.mem_cons.mp hv with rfl | hv'
    · have hmem : (⟨v, cf, bx, tx⟩ : Candidate) ∈
          (if inTempRange v then addBoth c ⟨v, cf, bx, tx⟩ else c).degree_candidates := by
        rw [if_pos hr]
        simp [addBoth]
      exact ⟨_, foldl_degree_mono _ (rangeAddStep_degree_subset cf bx tx) t _ hmem, rfl⟩
    · exact ih _ hv'

/-- A detection that passes the confidence/empty-text gate contributes every
in-range capture of the optional-unit pattern to `degree_candidates`. -/
theorem processDetection_degree_mem (cth : ℚ) (c : Collected) (d : Detection)
    (hok : ¬ (d.conf < cth ∨ d.text = "")) (v : ℚ)
    (hv : v ∈ findallTempWithUnit (pyStrip d.text)) (hr : inTempRange v = true) :
    ∃ e ∈ (processDetection cth c d).degree_candidates, e.val = v := by
  unfold processDetection
  rw [if_neg hok]
  obtain ⟨e, he, hev⟩ := foldl_rangeAdd_mem (d.conf + 1/10) d.bbox (pyStrip d.text)
    (findallTempWithUnit (pyStrip d.text))
    (maxBranch d.conf d.bbox (pyStrip d.text) c) v hv hr
  exact ⟨e, numBranch_degree_subset _ _ _ _ he, hev⟩

/-- Lifting `processDetection_degree_mem` through the whole collection loop. -/
theorem collect_degree_mem (cth : ℚ) (dets : List Detection) (d : Detection)
    (hd : d ∈ dets) (hok : ¬ (d.conf < cth ∨ d.text = "")) (v : ℚ)
    (hv : v ∈ findallTempWithUnit (pyStrip d.text)) (hr : inTempRange v = true) :
    ∃ e ∈ (collectCandidates cth dets).degree_candidates, e.val = v := by
  obtain ⟨s, t, rfl⟩ := List.append_of_mem hd
  unfold collectCandidates
  rw [List.foldl_append, List.foldl_cons]
  obtain ⟨e, he, hev⟩ := processDetection_degree_mem cth
    (List.foldl (processDetection cth) ⟨[], [], []⟩ s) d hok v hv hr
  exact ⟨e, foldl_degree_mono _ (processDetection_degree_subset cth) t _ he, hev⟩

/-- The fold of `firstMaxByConf` started from `some b` returns an element that
is `b` or comes from the list, whose confidence dominates `b` and the whole
list. -/
theorem firstMaxByConf_go (l : List Candidate) :
    ∀ b : Candidate,
      ∃ e, l.foldl
          (fun acc x =>
            match acc with
            | none => some x
            | some b => if b.conf < x.conf then some x else acc)
          (some b) = some e ∧
        (e = b ∨ e ∈ l) ∧ b.conf ≤ e.conf ∧ ∀ x ∈ l, x.conf ≤ e.conf := by
  induction l with
  | nil =>
    intro b
    exact ⟨b, rfl, Or.inl rfl, le_refl _, by simp⟩
  | cons x t ih =>
    intro b
    rw [List.foldl_cons]
    by_cases hbx : b.conf < x.conf
    · have hstep : (match some b with
          | none => some x
          | some bb => if bb.conf < x.conf then some x else some b) = some x := by
        simp [hbx]
      rw [hstep]
      obtain ⟨e, heq, hmem, hconf, hmax⟩ := ih x
      refine ⟨e, heq, ?_, le_of_lt (lt_of_lt_of_le hbx hconf), ?_⟩
      · rcases hmem with rfl | hm
        · exact Or.inr (List.mem_cons_self _ _)
        · exact Or.inr (List.mem_cons_of_mem _ hm)
      · intro y hy
        rcases List.mem_cons.mp hy with rfl | hy'
        · exact hconf
        · exact hmax y hy'
    · have hstep : (match some b with
          | none => some x
          | some bb => if bb.conf < x.conf then some x else some b) = some b := by
        simp [hbx]
      rw [hstep]
      obtain ⟨e, heq, hmem, hconf, hmax⟩ := ih b
      refine ⟨e, heq, ?_, hconf, ?_⟩
      · rcases hmem with rfl | hm
        · exact Or.inl rfl
        · exact Or.inr (List.mem_cons_of_mem _ hm)
      · intro y hy
        rcases List.mem_cons.mp hy with rfl | hy'
        · exact le_trans (le_of_not_lt hbx) hconf
        · exact hmax y hy'

/-- `firstMaxByConf` of a non-empty list is an element of maximal confidence
(the first such, by the strict-improvement update). -/
theorem firstMaxByConf_spec (l : List Candidate) (hne : l ≠ []) :
    ∃ e ∈ l, firstMaxByConf l = some e ∧ ∀ x ∈ l, x.conf ≤ e.conf := by
  rcases l with _ | ⟨b, t⟩
  · exact absurd rfl hne
  · obtain ⟨e, heq, hmem, hconf, hmax⟩ := firstMaxByConf_go t b
    refine ⟨e, ?_, heq, ?_⟩
    · rcases hmem with rfl | hm
      · exact List.mem_cons_self _ _
      · exact List.mem_cons_of_mem _ hm
    · intro x hx
      rcases List.mem_cons.mp hx with rfl | hx'
      · exact hconf
      · exact hmax x hx'

/-- The collection loop on the single bare-number detection "42": one
candidate with value 42 and confidence 0.5 + 0.1, present in both `numbers`
and `degree_candidates`, no label anchor. -/
theorem collect_sample :
    collectCandidates (2/5) [sampleDetection] =
      ⟨[⟨42, 1/2 + 1/10, sampleBBox, "42"⟩], [],
       [⟨42, 1/2 + 1/10, sampleBBox, "42"⟩]⟩ := by
  have h1 : pyStrip "42" = "42" := by decide
  have h2 : hasMaxToken "42" = false := by decide
  have h3 : findallTempWithUnit "42" = [42] := by decide
  have h4 : findallTempNum "42" = [42] := by decide
  have h7 : inTempRange 42 = true := by decide
  have hcond : ¬ (sampleDetection.conf < 2/5 ∨ sampleDetection.text = "") := by
    simp only [sampleDetection, not_or]
    refine ⟨by norm_num, by decide⟩
  simp only [collectCandidates, List.foldl_cons, List.foldl_nil, processDetection]
  rw [if_neg hcond]
  simp only [sampleDetection, h1, maxBranch, h2, Bool.false_eq_true, if_false,
    unitBranch, h3, List.foldl_cons, List.foldl_nil, h7, if_true, numBranch, h4]
  norm_num [addBoth]

/-! ## Theorems for the claims -/

/-- C1 (counterexample): with a reading of 40, ambient 28 and no asset match,
the partial path yields fault level "WARNING", not "CRITICAL" — the block does
not reuse `classify_fault_level` (which at delta 12, threshold 5, priority
"MEDIUM" returns "CRITICAL"); status "partial", threshold 5 and priority
"MEDIUM" do hold. -/
theorem processOutcome_noMatch_counterexample :
    processOutcome (fun _ _ => 5) (some 40) 28 none =
      ⟨some 12, 5, "WARNING", "partial", "MEDIUM"⟩ ∧
    classify_fault_level (40 - 28) 5 "MEDIUM" = "CRITICAL" ∧
    ("WARNING" : String) ≠ "CRITICAL" := by
  refine ⟨by norm_num [processOutcome], by norm_num [classify_fault_level], by decide⟩

/-- C1 (amended): when a nonzero temperature reading is extracted but no asset
match exists, the status is "partial", the default threshold 5.0 and default
priority "MEDIUM" apply, but the fault level is computed by a simplified rule —
"WARNING" when delta exceeds the threshold, else "NORMAL", never "CRITICAL". -/
theorem processOutcome_noMatch (thresholdOf : String → String → ℚ)
    (temp ambient : ℚ) (htemp : temp ≠ 0) :
    processOutcome thresholdOf (some temp) ambient none =
      ⟨some (temp - ambient), 5,
       if 5 < temp - ambient then "WARNING" else "NORMAL", "partial", "MEDIUM"⟩ := by
  simp [processOutcome, htemp]

/-- Witness for the amended C1 at the claim's own numbers: reading 40, ambient
28 give delta 12, status "partial", threshold 5, priority "MEDIUM" and fault
level "WARNING". -/
theorem processOutcome_noMatch_witness :
    processOutcome (fun _ _ => 5) (some 40) 28 none =
      ⟨some 12, 5, "WARNING", "partial", "MEDIUM"⟩ := by
  rw [processOutcome_noMatch (fun _ _ => 5) 40 28 (by norm_num)]
  norm_num

/-- C3: `classify_fault_level` returns NORMAL whenever `delta_t ≤ threshold`
(any priority, negative deltas included); otherwise CRITICAL when the priority
is "CRITICAL" or `delta_t > 2 * threshold`; otherwise WARNING. Being a plain
function of its three arguments it has no hidden state. -/
theorem classify_fault_level_cases (delta_t threshold : ℚ) (priority : String) :
    (delta_t ≤ threshold → classify_fault_level delta_t threshold priority = "NORMAL") ∧
    (threshold < delta_t → (priority = "CRITICAL" ∨ 2 * threshold < delta_t) →
      classify_fault_level delta_t threshold priority = "CRITICAL") ∧
    (threshold < delta_t → priority ≠ "CRITICAL" → delta_t ≤ 2 * threshold →
      classify_fault_level delta_t threshold priority = "WARNING") := by
  unfold classify_fault_level
  refine ⟨fun h => by simp [h], fun h hc => ?_, fun h hc hle => ?_⟩
  · rw [if_neg (not_le.mpr h), if_pos]
    rcases hc with hc | hc
    · exact Or.inl hc
    · exact Or.inr (by linarith)
  · rw [if_neg (not_le.mpr h), if_neg]
    push_neg
    exact ⟨hc, by linarith⟩

/-- Witness for C3 at concrete inputs: a negative delta with priority
"CRITICAL" still classifies as NORMAL, and delta 12 over threshold 5 with
priority "MEDIUM" classifies as CRITICAL. -/
theorem classify_fault_level_cases_witness :
    classify_fault_level (-3) 2 "CRITICAL" = "NORMAL" ∧
    classify_fault_level 12 5 "MEDIUM" = "CRITICAL" :=
  ⟨(classify_fault_level_cases (-3) 2 "CRITICAL").1 (by norm_num),
   (classify_fault_level_cases 12 5 "MEDIUM").2.1 (by norm_num) (Or.inr (by norm_num))⟩

/-- C4: with reference year 2024, the dynamic threshold equals
`max (base - min ((2024 - year) * 0.1) 2 - capacity / 1000) 2` with base 8 for
voltage ≥ 220 and 5 otherwise; consequently it is ≥ 2.0 on the claimed grid of
voltages {66,110,220,400}, capacities [0,5000] and years [1950,2024] (the floor
in fact holds for all inputs). -/
theorem get_dynamic_threshold_spec (voltage_kv capacity_amps commissioning_year : ℤ) :
    get_dynamic_threshold voltage_kv capacity_amps commissioning_year =
      max (((if (220 : ℤ) ≤ voltage_kv then (8 : ℚ) else 5)
        - min (((2024 - commissioning_year : ℤ) : ℚ) * (1/10)) 2
        - (capacity_amps : ℚ) / 1000)) 2 ∧
    ((voltage_kv = 66 ∨ voltage_kv = 110 ∨ voltage_kv = 220 ∨ voltage_kv = 400) →
      0 ≤ capacity_amps → capacity_amps ≤ 5000 →
      1950 ≤ commissioning_year → commissioning_year ≤ 2024 →
      2 ≤ get_dynamic_threshold voltage_kv capacity_amps commissioning_year) := by
  refine ⟨rfl, fun _ _ _ _ _ => ?_⟩
  unfold get_dynamic_threshold
  exact le_max_right _ _

/-- Witness for C4 at the spec's own scenario: voltage 220, capacity 1200,
year 2000 give threshold 8 − 2 − 1.2 = 4.8 ≥ 2. -/
theorem get_dynamic_threshold_spec_witness :
    get_dynamic_threshold 220 1200 2000 = 24/5 ∧
    2 ≤ get_dynamic_threshold 220 1200 2000 :=
  ⟨by norm_num [get_dynamic_threshold],
   (get_dynamic_threshold_spec 220 1200 2000).2 (Or.inr (Or.inr (Or.inl rfl)))
     (by norm_num) (by norm_num) (by norm_num) (by norm_num)⟩

/-- C9: after any check that grants admission, the client's list holds at most
`calls` entries, all of them unexpired (younger than `period`); and a rejecting
check stores exactly the purged list, appending nothing. -/
theorem check_rate_limit_window_invariant (calls : ℕ) (period now : ℚ) (l : List ℚ)
    (hperiod : 0 < period) :
    (∀ l', check_rate_limit calls period now l = (RLResult.admitted, l') →
      l'.length ≤ calls ∧ ∀ ts ∈ l', now - ts < period) ∧
    (∀ r l'', check_rate_limit calls period now l = (RLResult.rejected r, l'') →
      l'' = purgeWindow period now l) := by
  constructor
  · intro l' h
    unfold check_rate_limit at h
    by_cases hc : calls ≤ (purgeWindow period now l).length
    · simp [hc] at h
    · simp [hc] at h
      subst h
      constructor
      · have := Nat.lt_of_not_le hc
        simpa [List.length_append] using this
      · intro ts hts
        rcases List.mem_append.mp hts with hm | hm
        · exact of_decide_eq_true (List.mem_filter.mp hm).2
        · rcases List.mem_singleton.mp hm with rfl
          simpa using hperiod
  · intro r l'' h
    unfold check_rate_limit at h
    by_cases hc : calls ≤ (purgeWindow period now l).length
    · simp [hc] at h
      exact h.2.symm
    · simp [hc] at h

/-- Witness for C9: with calls 10, period 60, a check at time 0 on the empty
window admits and leaves the single unexpired entry [0]. -/
theorem check_rate_limit_window_invariant_witness :
    check_rate_limit 10 60 0 [] = (RLResult.admitted, [0]) ∧
    ([(0 : ℚ)].length ≤ 10 ∧ ∀ ts ∈ [(0 : ℚ)], (0 : ℚ) - ts < 60) :=
  ⟨by decide,
   (check_rate_limit_window_invariant 10 60 0 [] (by norm_num)).1 [0] (by decide)⟩

/-- C10: a request whose User-Agent contains "testclient" (case-insensitively)
is forwarded by the global middleware with the client map untouched — no window
is consulted or mutated and no 429 is possible, whatever the client's history. -/
theorem dispatch_testclient_bypass (calls : ℕ) (period : ℚ)
    (user_agent client_ip : String) (now : ℚ) (clients : String → List ℚ)
    (h : isTestClientUA user_agent = true) :
    dispatch calls period user_agent client_ip now clients =
      (DispatchResult.forwarded, clients) := by
  unfold dispatch
  simp [h]

/-- Witness for C10: a mixed-case "PyTestClient/2.0" User-Agent is forwarded
even though the client already has 100 recent requests recorded under a
10-per-60 policy. -/
theorem dispatch_testclient_bypass_witness :
    dispatch 10 60 "PyTestClient/2.0" "1.2.3.4" 50
        (fun _ => List.replicate 100 (1 : ℚ)) =
      (DispatchResult.forwarded, fun _ => List.replicate 100 (1 : ℚ)) :=
  dispatch_testclient_bypass 10 60 "PyTestClient/2.0" "1.2.3.4" 50 _ (by decide)

/-- C5: for the upload limiter `(calls=10, period=60)` and any client issuing
requests at nondecreasing times `t 0 ≤ … ≤ t 10` all within 60 seconds of the
first: the 10th request (at `t 9`) is admitted, the 11th (at `t 10`) is
rejected with `retry_after = 60`, and once 60 seconds have elapsed past every
windowed request a further check is admitted again. -/
theorem upload_rate_limit_scenario (t : ℕ → ℚ)
    (mono : ∀ i j, i ≤ j → j ≤ 10 → t i ≤ t j)
    (win : t 10 - t 0 < 60) :
    (check_rate_limit 10 60 (t 9) (statesFrom 10 60 t 9)).1 = RLResult.admitted ∧
    (check_rate_limit 10 60 (t 10) (statesFrom 10 60 t 10)).1 = RLResult.rejected 60 ∧
    ∀ now : ℚ, (∀ i, i ≤ 9 → t i + 60 ≤ now) →
      (check_rate_limit 10 60 now (statesFrom 10 60 t 11)).1 = RLResult.admitted := by
  have hspread : ∀ k j : ℕ, k ≤ 10 → j ≤ 10 → t k - t j < 60 := by
    intro k j hk hj
    have h1 := mono 0 j (Nat.zero_le j) hj
    have h2 := mono k 10 hk le_rfl
    linarith
  have hkeep : ∀ k n : ℕ, k ≤ 10 → n ≤ 10 →
      purgeWindow 60 (t k) ((List.range n).map t) = (List.range n).map t := by
    intro k n hk hn
    apply List.filter_eq_self.mpr
    intro a ha
    rcases List.mem_map.mp ha with ⟨j, hj, rfl⟩
    have hj' : j ≤ 10 := le_trans (Nat.le_of_lt (List.mem_range.mp hj)) hn
    simp only [decide_eq_true_eq]
    exact hspread k j hk hj'
  have key : ∀ k, k ≤ 10 → statesFrom 10 60 t k = (List.range k).map t := by
    intro k
    induction k with
    | zero => intro _; rfl
    | succ n ih =>
      intro hn
      have hn' : n ≤ 10 := Nat.le_of_succ_le hn
      simp only [statesFrom]
      rw [ih hn']
      unfold check_rate_limit
      rw [hkeep n n hn' hn']
      have hlen : ¬ (10 ≤ n) := by omega
      simp [List.length_map, List.length_range, hlen, List.range_succ]
  have h10 : statesFrom 10 60 t 10 = (List.range 10).map t := key 10 le_rfl
  have h9 : statesFrom 10 60 t 9 = (List.range 9).map t := key 9 (by norm_num)
  refine ⟨?_, ?_, ?_⟩
  · rw [h9]
    unfold check_rate_limit
    rw [hkeep 9 9 (by norm_num) (by norm_num)]
    have hlen : ¬ (10 ≤ ((List.range 9).map t).length) := by
      simp [List.length_map, List.length_range]
    simp [hlen]
  · rw [h10]
    unfold check_rate_limit
    rw [hkeep 10 10 le_rfl le_rfl]
    have hlen : (10 : ℕ) ≤ ((List.range 10).map t).length := by
      simp [List.length_map, List.length_range]
    simp [hlen]
  · intro now hnow
    have h11 : statesFrom 10 60 t 11 = (List.range 10).map t := by
      rw [show statesFrom 10 60 t 11 =
        (check_rate_limit 10 60 (t 10) (statesFrom 10 60 t 10)).2 from rfl]
      rw [h10]
      unfold check_rate_limit
      rw [hkeep 10 10 le_rfl le_rfl]
      have hlen : (10 : ℕ) ≤ ((List.range 10).map t).length := by
        simp [List.length_map, List.length_range]
      simp [hlen]
    rw [h11]
    unfold check_rate_limit
    have hempty : purgeWindow 60 now ((List.range 10).map t) = [] := by
      apply List.filter_eq_nil_iff.mpr
      intro a ha
      rcases List.mem_map.mp ha with ⟨j, hj, rfl⟩
      have hj' : j ≤ 9 := Nat.lt_succ_iff.mp (List.mem_range.mp hj)
      simp only [decide_eq_true_eq]
      have := hnow j hj'
      linarith
    rw [hempty]
    simp

/-- Witness for C5 at the concrete request times 0, 1, …, 10 (all within one
minute): the 10th request is admitted, the 11th rejected with retry 60, and a
check at time 100 (a minute after every windowed request) is admitted. -/
theorem upload_rate_limit_scenario_witness :
    (check_rate_limit 10 60 ((9 : ℕ) : ℚ) (statesFrom 10 60 (fun i => (i : ℚ)) 9)).1 =
      RLResult.admitted ∧
    (check_rate_limit 10 60 ((10 : ℕ) : ℚ) (statesFrom 10 60 (fun i => (i : ℚ)) 10)).1 =
      RLResult.rejected 60 ∧
    (check_rate_limit 10 60 100 (statesFrom 10 60 (fun i => (i : ℚ)) 11)).1 =
      RLResult.admitted := by
  have h := upload_rate_limit_scenario (fun i => (i : ℚ))
    (fun i j hij _ => by show (i : ℚ) ≤ (j : ℚ); exact_mod_cast hij) (by norm_num)
  exact ⟨h.1, h.2.1, h.2.2 100 (fun i hi => by
    show (i : ℚ) + 60 ≤ 100
    have : (i : ℚ) ≤ 9 := by exact_mod_cast hi
    linarith)⟩

/-- C6: on a non-empty registry of well-formed rows, `find_nearest_tower`
returns the row of minimal haversine distance to the query point, the first
one in registry order when several attain the minimum (every earlier row is
strictly farther); and the haversine distance from any point to itself is 0. -/
theorem find_nearest_tower_spec (lat lon : ℝ) (rows : List Tower)
    (hne : rows ≠ []) :
    (∃ t l1 l2, find_nearest_tower lat lon rows = some t ∧ rows = l1 ++ t :: l2 ∧
      (∀ u ∈ rows, towerDist lat lon t ≤ towerDist lat lon u) ∧
      (∀ u ∈ l1, towerDist lat lon t < towerDist lat lon u)) ∧
    (∀ la lo : ℝ, haversine_distance la lo la lo = 0) := by
  constructor
  · rcases rows with _ | ⟨t0, rest⟩
    · exact absurd rfl hne
    · have hred : find_nearest_tower lat lon (t0 :: rest) =
          (scanNearest lat lon rest (some (towerDist lat lon t0, t0))).map Prod.snd := rfl
      rcases scanNearest_spec lat lon rest (towerDist lat lon t0) t0 with
        ⟨heq, hall⟩ | ⟨l1, t', l2, hsp, heq, hlt', h1, h2⟩
      · refine ⟨t0, [], rest, ?_, by simp, ?_, by simp⟩
        · rw [hred, heq]
          rfl
        · intro u hu
          rcases List.mem_cons.mp hu with rfl | hu'
          · exact le_refl _
          · exact hall u hu'
      · refine ⟨t', t0 :: l1, l2, ?_, by simp [hsp], ?_, ?_⟩
        · rw [hred, heq]
          rfl
        · intro u hu
          rcases List.mem_cons.mp hu with rfl | hu'
          · exact le_of_lt hlt'
          · rw [hsp] at hu'
            rcases List.mem_append.mp hu' with hm | hm
            · exact le_of_lt (h1 u hm)
            · rcases List.mem_cons.mp hm with rfl | hm'
              · exact le_refl _
              · exact h2 u hm'
        · intro u hu
          rcases List.mem_cons.mp hu with rfl | hu'
          · exact hlt'
          · exact h1 u hu'
  · intro la lo
    simp [haversine_distance, sub_self]

/-- Witness for C6: a one-row registry at the query point itself; the row is
returned and its self-distance is 0. -/
theorem find_nearest_tower_spec_witness :
    ([({ tower_id := 1, tower_name := "T1", latitude := 0, longitude := 0 } : Tower)]
      ≠ ([] : List Tower)) ∧
    ((∃ t l1 l2, find_nearest_tower 0 0
        [({ tower_id := 1, tower_name := "T1", latitude := 0, longitude := 0 } : Tower)] =
          some t ∧
        [({ tower_id := 1, tower_name := "T1", latitude := 0, longitude := 0 } : Tower)] =
          l1 ++ t :: l2 ∧
        (∀ u ∈ [({ tower_id := 1, tower_name := "T1", latitude := 0, longitude := 0 } : Tower)],
          towerDist 0 0 t ≤ towerDist 0 0 u) ∧
        (∀ u ∈ l1, towerDist 0 0 t < towerDist 0 0 u)) ∧
      (∀ la lo : ℝ, haversine_distance la lo la lo = 0)) :=
  ⟨by simp, find_nearest_tower_spec 0 0 _ (by simp)⟩

/-- C2 (code behavior at the failing input): when the recognizer is
unavailable, `extract_temperature_from_image` does NOT return the absent
value — it returns `round(random.uniform(35, 55), 1)`, a fabricated reading
that always lies in [35, 55] and is never `none`, for every image/config. -/
theorem extract_no_reader_fabricates (rng : ℚ) (region : String)
    (conf_threshold width y0 y1 : ℚ) (h35 : 35 ≤ rng) (h55 : rng ≤ 55) :
    extract_temperature_from_image none rng region conf_threshold width y0 y1 =
      some (pyRound1 rng) ∧
    extract_temperature_from_image none rng region conf_threshold width y0 y1 ≠
      none ∧
    35 ≤ pyRound1 rng ∧ pyRound1 rng ≤ 55 := by
  have hb := roundHalfEven_bounds 350 550 (rng * 10)
    (by push_cast; linarith) (by push_cast; linarith)
  have h1 : (350 : ℚ) ≤ (roundHalfEven (rng * 10) : ℚ) := by exact_mod_cast hb.1
  have h2 : (roundHalfEven (rng * 10) : ℚ) ≤ 550 := by exact_mod_cast hb.2
  refine ⟨rfl, by simp [extract_temperature_from_image], ?_, ?_⟩
  · unfold pyRound1
    linarith
  · unfold pyRound1
    linarith

/-- Witness for C2 at the draw 40: the no-recognizer path returns the
fabricated `some 40`, not `none`. -/
theorem extract_no_reader_fabricates_witness :
    extract_temperature_from_image none 40 "top_left" (2/5) 1000 0 200 =
      some (pyRound1 40) ∧
    extract_temperature_from_image none 40 "top_left" (2/5) 1000 0 200 ≠ none ∧
    35 ≤ pyRound1 40 ∧ pyRound1 40 ≤ 55 :=
  extract_no_reader_fabricates 40 "top_left" (2/5) 1000 0 200
    (by norm_num) (by norm_num)

/-- C7 (counterexample): the bare text "42" carries no degree or unit mark,
the label stage yields nothing, and yet the unit-marked stage
(`pick_degree_mark`) selects 42 — because the unit marker in `temp_with_unit`
is optional, every numeric candidate enters `degree_candidates`. -/
theorem pick_degree_mark_counterexample :
    hasDegreeMarkChar "42" = false ∧
    pick_near_label 0 200 (collectCandidates (2/5) [sampleDetection]) = none ∧
    pick_degree_mark (collectCandidates (2/5) [sampleDetection]) = some 42 := by
  refine ⟨by decide, ?_, ?_⟩
  · rw [collect_sample]
    simp [pick_near_label]
  · rw [collect_sample]
    simp [pick_degree_mark, firstMaxByConf]

/-- C7 (amended): stage 2 draws from the `degree_candidates` pool, which the
collection loop fills with every in-range capture of the optional-unit-mark
pattern of every admitted detection — bare numbers included, since the unit
marker is optional — and among that pool it picks the value of a
maximal-confidence entry (the first such). -/
theorem pick_degree_mark_amended :
    (∀ (conf_threshold : ℚ) (dets : List Detection) (d : Detection), d ∈ dets →
      ¬ (d.conf < conf_threshold ∨ d.text = "") →
      ∀ v ∈ findallTempWithUnit (pyStrip d.text), inTempRange v = true →
        ∃ e ∈ (collectCandidates conf_threshold dets).degree_candidates, e.val = v) ∧
    (∀ c : Collected, c.degree_candidates ≠ [] →
      ∃ e ∈ c.degree_candidates, pick_degree_mark c = some e.val ∧
        ∀ x ∈ c.degree_candidates, x.conf ≤ e.conf) := by
  constructor
  · intro cth dets d hd hok v hv hr
    exact collect_degree_mem cth dets d hd hok v hv hr
  · intro c hne
    obtain ⟨e, he, heq, hmax⟩ := firstMaxByConf_spec c.degree_candidates hne
    exact ⟨e, he, by simp [pick_degree_mark, heq], hmax⟩

/-- Witness for the amended C7 at the bare "42" detection: the value 42 enters
the stage-2 pool and stage 2 returns a maximal-confidence entry's value. -/
theorem pick_degree_mark_amended_witness :
    (∃ e ∈ (collectCandidates (2/5) [sampleDetection]).degree_candidates,
      e.val = 42) ∧
    (∃ e ∈ (collectCandidates (2/5) [sampleDetection]).degree_candidates,
      pick_degree_mark (collectCandidates (2/5) [sampleDetection]) = some e.val ∧
      ∀ x ∈ (collectCandidates (2/5) [sampleDetection]).degree_candidates,
        x.conf ≤ e.conf) := by
  constructor
  · exact pick_degree_mark_amended.1 (2/5) [sampleDetection] sampleDetection
      (List.mem_singleton.mpr rfl)
      (by simp only [sampleDetection, not_or]; exact ⟨by norm_num, by decide⟩)
      42 (by decide) (by decide)
  · exact pick_degree_mark_amended.2 (collectCandidates (2/5) [sampleDetection])
      (by rw [collect_sample]; simp)

/-- C8 (counterexample): with the default side fraction 0.5 on a 1000-wide
image, the band is 500 wide, so a candidate centered at x = 400 lies in the
favored (right) half of the ROI; yet `pick_top_right` selects nothing, because
it compares band-local coordinates against 0.6 × the full image width
(main.py:638). -/
theorem pick_top_right_counterexample :
    (∃ e ∈ (collectCandidates (2/5) [sampleDetection]).numbers,
      250 ≤ e.bbox.centerX) ∧
    pick_top_right 1000 (collectCandidates (2/5) [sampleDetection]) = none := by
  constructor
  · rw [collect_sample]
    refine ⟨_, List.mem_singleton.mpr rfl, ?_⟩
    norm_num [sampleBBox, BBox.centerX]
  · rw [collect_sample]
    norm_num [pick_top_right, sampleBBox, BBox.centerX, maxPairLex]

/-- C8 (amended): the side stage exists only for the `top_right` variant (for
`top_left` the chain never consults it), and it filters on
`centerX ≥ 0.6 × image width` in band-local coordinates; whenever every
candidate lies within a band of half the image width — always the case under
the default side fraction 0.5 without preprocessing scaling — the stage
selects nothing and the chain behaves exactly as in the `top_left` variant. -/
theorem pick_top_right_amended (width y0 y1 : ℚ) (c : Collected)
    (hw : 0 < width) (hc : ∀ e ∈ c.numbers, e.bbox.centerX ≤ width / 2) :
    pick_top_right width c = none ∧
    selectTemperature "top_right" width y0 y1 c =
      selectTemperature "top_left" width y0 y1 c := by
  have hnone : pick_top_right width c = none := by
    unfold pick_top_right
    split
    · rfl
    · have hf : c.numbers.filter (fun nb => width * (3/5) ≤ nb.bbox.centerX) = [] := by
        apply List.filter_eq_nil_iff.mpr
        intro e he
        simp only [decide_eq_true_eq]
        have h1 := hc e he
        intro hge
        linarith
      rw [hf]
      simp [maxPairLex]
  refine ⟨hnone, ?_⟩
  have hne : ("top_left" : String) = "top_right" ↔ False := by
    simp only [iff_false]
    decide
  cases hn : pick_near_label y0 y1 c <;> cases hd : pick_degree_mark c <;>
    simp [selectTemperature, hn, hd, hnone, hne]

/-- Witness for the amended C8 at the "42" detection on a 1000-wide image:
the single candidate sits at x = 400 ≤ 500, the stage returns nothing, and
the `top_right` chain coincides with the `top_left` one. -/
theorem pick_top_right_amended_witness :
    pick_top_right 1000 (collectCandidates (2/5) [sampleDetection]) = none ∧
    selectTemperature "top_right" 1000 0 200
        (collectCandidates (2/5) [sampleDetection]) =
      selectTemperature "top_left" 1000 0 200
        (collectCandidates (2/5) [sampleDetection]) := by
  refine pick_top_right_amended 1000 0 200 _ (by norm_num) ?_
  rw [collect_sample]
  intro e he
  rcases List.mem_singleton.mp he with rfl
  norm_num [sampleBBox, BBox.centerX]

end ThermoFinal
